import Mathlib

/-!
Verification development for the gochess chess engine (package `chess` plus the
`gochess` board substrate).  Go code is shallowly embedded: Go strings become
byte lists, Go `int8` piece codes become `Nat` (all codes are small and
non-negative), Go `int` coordinates become `Int`, mutation becomes explicit
state passing, and Go runtime panics become explicit `crash`/`none` outcomes.
-/

set_option maxRecDepth 100000

namespace Gochess

/-- A Go string, modelled as its list of bytes.  Every string the engine
manipulates is ASCII. -/
abbrev GoStr := List Nat

/-- Byte list of an ASCII string literal. -/
def bytes (s : String) : GoStr := s.data.map Char.toNat

/-! Piece codes, from the `gochess` constants file: a 3-bit type field plus a
color bit (`White = 0b01000`, `Black = 0b10000`). -/

def White : Nat := 8
def Black : Nat := 16
def Empty : Nat := 0
def Pawn : Nat := 1
def Knight : Nat := 2
def Bishop : Nat := 3
def Rook : Nat := 4
def Queen : Nat := 5
def King : Nat := 6

/-- Go's `a &^ b` (AND NOT) on `int8`, for the non-negative piece codes used
by the engine: complement `b` within 8 bits and mask. -/
def bandNot (a b : Nat) : Nat := a &&& (255 - b)

/-- `gochess.Colors`: map from color name to color code. -/
def Colors (s : GoStr) : Option Nat :=
  if s = bytes ("w") then some White
  else if s = bytes ("b") then some Black
  else none

/-- `gochess.ColorNames`: map from color code to name; a missing key yields the
zero value (the empty string), as for any Go map access. -/
def ColorNames (n : Nat) : GoStr :=
  if n = White then bytes ("w")
  else if n = Black then bytes ("b")
  else []

/-- `gochess.Pieces`: map from piece letter (as a 1-byte string) to colored
piece code; a missing key yields the zero value `Empty`. -/
def Pieces (s : GoStr) : Nat :=
  if s = bytes ("p") then Black ||| Pawn
  else if s = bytes ("P") then White ||| Pawn
  else if s = bytes ("n") then Black ||| Knight
  else if s = bytes ("N") then White ||| Knight
  else if s = bytes ("b") then Black ||| Bishop
  else if s = bytes ("B") then White ||| Bishop
  else if s = bytes ("r") then Black ||| Rook
  else if s = bytes ("R") then White ||| Rook
  else if s = bytes ("q") then Black ||| Queen
  else if s = bytes ("Q") then White ||| Queen
  else if s = bytes ("k") then Black ||| King
  else if s = bytes ("K") then White ||| King
  else Empty

/-- `gochess.PiecesWithoutColor`: map from piece letter to uncolored piece
code; missing keys yield `Empty`. -/
def PiecesWithoutColor (s : GoStr) : Nat :=
  if s = bytes ("p") ∨ s = bytes ("P") then Pawn
  else if s = bytes ("n") ∨ s = bytes ("N") then Knight
  else if s = bytes ("b") ∨ s = bytes ("B") then Bishop
  else if s = bytes ("r") ∨ s = bytes ("R") then Rook
  else if s = bytes ("q") ∨ s = bytes ("Q") then Queen
  else if s = bytes ("k") ∨ s = bytes ("K") then King
  else Empty

/-- `gochess.PieceNames`: map from colored piece code to its letter; missing
keys yield the empty string. -/
def PieceNames (n : Nat) : GoStr :=
  if n = Black ||| Pawn then bytes ("p")
  else if n = White ||| Pawn then bytes ("P")
  else if n = Black ||| Knight then bytes ("n")
  else if n = White ||| Knight then bytes ("N")
  else if n = Black ||| Bishop then bytes ("b")
  else if n = White ||| Bishop then bytes ("B")
  else if n = Black ||| Rook then bytes ("r")
  else if n = White ||| Rook then bytes ("R")
  else if n = Black ||| Queen then bytes ("q")
  else if n = White ||| Queen then bytes ("Q")
  else if n = Black ||| King then bytes ("k")
  else if n = White ||| King then bytes ("K")
  else []

/-- `gochess.Coordinate`: a pair of Go `int`s. -/
structure Coordinate where
  X : Int
  Y : Int
deriving DecidableEq, Repr

/-- `gochess.Coor`. -/
def Coor (x y : Int) : Coordinate := ⟨x, y⟩

/-- `gochess.Board`: a width and a 2D slice of piece codes, indexed
`squares[Y][X]`. -/
structure Board where
  squares : List (List Nat)
  width : Nat
deriving DecidableEq, Repr

/-- `Board.isValidCoordinate`. -/
def Board.isValidCoordinate (b : Board) (c : Coordinate) : Bool :=
  0 ≤ c.X && c.X < (b.width : Int) && 0 ≤ c.Y && c.Y < (b.width : Int)

/-- `Board.Square`: `none` models the out-of-bounds error return. -/
def Board.Square (b : Board) (c : Coordinate) : Option Nat :=
  if b.isValidCoordinate c then
    some ((b.squares.getD c.Y.toNat []).getD c.X.toNat Empty)
  else none

/-- Go call sites that read `p, _ := b.Square(c)` receive `Empty` together
with the ignored error, since `Board.Square` returns `Empty, err` on an
invalid coordinate. -/
def Board.SquareD (b : Board) (c : Coordinate) : Nat := (b.Square c).getD Empty

/-- In-place list update; out-of-range indices leave the list unchanged. -/
def listSet {α : Type} : List α → Nat → α → List α
  | [], _, _ => []
  | _ :: xs, 0, v => v :: xs
  | x :: xs, n + 1, v => x :: listSet xs n v

/-- `Board.SetSquare`; all Go call sites discard the out-of-bounds error,
which leaves the board unchanged. -/
def Board.SetSquare (b : Board) (c : Coordinate) (p : Nat) : Board :=
  if b.isValidCoordinate c then
    let row := listSet (b.squares.getD c.Y.toNat []) c.X.toNat p
    { b with squares := listSet b.squares c.Y.toNat row }
  else b

/-- `Board.MakeMove`: copy the origin piece to the target and clear the
origin; no game-logic validation.  Errors are discarded by every caller. -/
def Board.MakeMove (b : Board) (o t : Coordinate) : Board :=
  if b.isValidCoordinate o && b.isValidCoordinate t then
    (b.SetSquare t (b.SquareD o)).SetSquare o Empty
  else b

/-! Notation codec (`chess/move.go`). -/

/-- `chess.CoordinateToAlgebraic`: two ASCII bytes `'a'+X` and the digit
`8-Y`, or the empty string out of bounds. -/
def CoordinateToAlgebraic (c : Coordinate) : GoStr :=
  if c.X > 7 ∨ c.Y > 7 ∨ c.X < 0 ∨ c.Y < 0 then []
  else [(97 + c.X).toNat, (48 + (8 - c.Y)).toNat]

/-- `chess.AlgebraicToCoordinate`.  Go computes `s[0]-'a'` and `s[1]-'0'` with
wrapping byte subtraction before widening to `int`; the `% 256` mirrors
that. -/
def AlgebraicToCoordinate (s : GoStr) : Option Coordinate :=
  match s with
  | [s0, s1] =>
    let x : Int := ((s0 + 256 - 97) % 256 : Nat)
    let y : Int := 8 - (((s1 + 256 - 48) % 256 : Nat) : Int)
    if x < 0 ∨ x > 7 ∨ y < 0 ∨ y > 7 then none
    else some (Coor x y)
  | _ => none

/-- `chess.UCI`: origin and target in algebraic notation plus an optional
lowercase promotion letter.  The Go variadic `piece` parameter becomes a
list; only its head is used. -/
def UCI (origin target : Coordinate) (piece : List Nat) : GoStr :=
  let p : GoStr :=
    match piece with
    | [] => []
    | pi :: _ => PieceNames (bandNot pi White ||| Black)
  CoordinateToAlgebraic origin ++ CoordinateToAlgebraic target ++ p

/-! Go string and number utilities used by the engine. -/

/-- Decimal digits of a natural number; the fuel (30) covers every value a
64-bit Go integer can hold. -/
def natToBytesFuel : Nat → Nat → GoStr
  | 0, n => [48 + n % 10]
  | fuel + 1, n => if n < 10 then [48 + n] else natToBytesFuel fuel (n / 10) ++ [48 + n % 10]

/-- `fmt.Sprintf("%d", n)` for a non-negative value. -/
def natToBytes (n : Nat) : GoStr := natToBytesFuel 30 n

/-- `fmt.Sprintf("%d", i)` for a Go `int`. -/
def intToBytes (i : Int) : GoStr :=
  if i < 0 then 45 :: natToBytes (-i).toNat else natToBytes i.toNat

def goSplitGo (sep : Nat) : GoStr → GoStr → List GoStr
  | [], acc => [acc.reverse]
  | b :: rest, acc =>
    if b = sep then acc.reverse :: goSplitGo sep rest []
    else goSplitGo sep rest (b :: acc)

/-- `strings.Split` with a single-byte separator (the engine only splits on
`"/"` and `" "`). -/
def goSplit (sep : Nat) (s : GoStr) : List GoStr := goSplitGo sep s []

/-- `strings.Join` with a single-byte separator. -/
def joinWith (sep : Nat) : List GoStr → GoStr
  | [] => []
  | [x] => x
  | x :: xs => x ++ sep :: joinWith sep xs

/-- `strings.Contains` for the 1-byte patterns used by the engine (castle
letters). -/
def goContains1 (s : GoStr) (sub : GoStr) : Bool :=
  match sub with
  | [b] => s.contains b
  | _ => false

def digitVal (b : Nat) : Option Nat :=
  if 48 ≤ b ∧ b ≤ 57 then some (b - 48) else none

def digitsValGo : GoStr → Nat → Option Nat
  | [], acc => some acc
  | b :: r, acc =>
    match digitVal b with
    | some d => digitsValGo r (acc * 10 + d)
    | none => none

/-- Value of a non-empty all-digit string. -/
def digitsVal (s : GoStr) : Option Nat :=
  if s = [] then none else digitsValGo s 0

/-- `strconv.Atoi`: optional sign, decimal digits, 64-bit signed range. -/
def goAtoi (s : GoStr) : Option Int :=
  match s with
  | 43 :: r => (digitsVal r).bind fun n => if n ≤ 2 ^ 63 - 1 then some (n : Int) else none
  | 45 :: r => (digitsVal r).bind fun n => if n ≤ 2 ^ 63 then some (-(n : Int)) else none
  | _ => (digitsVal s).bind fun n => if n ≤ 2 ^ 63 - 1 then some (n : Int) else none

/-- `strconv.ParseUint(s, 10, 32)`: decimal digits only, 32-bit range. -/
def goParseUint32 (s : GoStr) : Option Nat :=
  (digitsVal s).bind fun n => if n ≤ 2 ^ 32 - 1 then some n else none

/-! The `chess.Chess` game state (current snapshot: `chess/chess.go`).  Go's
king-position fields are `*Coordinate` pointers; every state built by `New`
or a successful `loadPosition` has both set, the pointed-to values are never
mutated in place, and a nil pointer would make Go panic on dereference, so
they are modelled as plain values. -/

/-- `chess.chessContext`: one history entry.  Go pushes a struct literal that
leaves the `check`/`checkmate`/`stalemate` fields at their zero value. -/
structure ChessContext where
  move : GoStr
  fen : GoStr
  halfMove : Int
  availableCastles : GoStr
  enPassantSquare : GoStr
  whiteKingPosition : Coordinate
  blackKingPosition : Coordinate
  check : Bool
  checkmate : Bool
  stalemate : Bool
deriving DecidableEq, Repr

def emptyContext : ChessContext :=
  ⟨[], [], 0, [], [], Coor 0 0, Coor 0 0, false, false, false⟩

/-- `chess.Chess`.  `movesCount` is Go `uint64` (loaded values are capped at
32 bits by `ParseUint`, far from overflow), `halfMoves` is Go `int`.  The
`config` field only selects a worker count for the parallel optimization and
is not part of the sequential semantics modelled here. -/
structure Chess where
  board : Board
  turn : Nat
  movesCount : Nat
  halfMoves : Int
  enPassantSquare : GoStr
  availableCastles : GoStr
  moves : List GoStr
  actualFEN : GoStr
  blackKingPosition : Coordinate
  whiteKingPosition : Coordinate
  check : Bool
  checkmate : Bool
  stalemate : Bool
  history : List ChessContext
deriving DecidableEq, Repr

/-- `chess.castlesMoves` map; missing keys yield the zero value 0. -/
def castlesMoves (m : GoStr) : Nat :=
  if m = bytes ("e1g1") ∨ m = bytes ("e1c1") then White
  else if m = bytes ("e8g8") ∨ m = bytes ("e8c8") then Black
  else 0

/-- `chess.castleKingWay` map; missing keys yield the zero Coordinate. -/
def castleKingWay (m : GoStr) : Coordinate :=
  if m = bytes ("e1g1") then Coor 5 7
  else if m = bytes ("e1c1") then Coor 3 7
  else if m = bytes ("e8g8") then Coor 5 0
  else if m = bytes ("e8c8") then Coor 3 0
  else Coor 0 0

/-- `chess.castleRook` map; missing keys yield the zero Coordinate. -/
def castleRook (m : GoStr) : Coordinate :=
  if m = bytes ("e1g1") then Coor 7 7
  else if m = bytes ("e1c1") then Coor 0 7
  else if m = bytes ("e8g8") then Coor 7 0
  else if m = bytes ("e8c8") then Coor 0 0
  else Coor 0 0

/-! Pseudo-legal move generation (`chess/moves.go`). -/

/-- `promotionPosibilities`: one UCI move per promotion piece type. -/
def promotionPosibilities (origin target : Coordinate) : List GoStr :=
  [UCI origin target [Queen], UCI origin target [Rook],
   UCI origin target [Bishop], UCI origin target [Knight]]

/-- `pawnCaptureMoves`. -/
def pawnCaptureMoves (c : Chess) (origin : Coordinate) (isPromotion : Bool) : List GoStr :=
  let p := c.board.SquareD origin
  let pColor := p &&& (White ||| Black)
  let dir : Int := if pColor = Black then 1 else -1
  (([-1, 1] : List Int).map fun o =>
    let tCor := Coor (origin.X + o) (origin.Y + 1 * dir)
    if tCor.X < 0 ∨ tCor.X > 7 ∨ tCor.Y < 0 ∨ tCor.Y > 7 then []
    else if CoordinateToAlgebraic tCor = c.enPassantSquare then [UCI origin tCor []]
    else
      let ts := c.board.SquareD tCor
      if ts = Empty ∨ ts &&& pColor ≠ Empty then []
      else if !isPromotion then [UCI origin tCor []]
      else promotionPosibilities origin tCor).flatten

/-- `pawnMoves`. -/
def pawnMoves (c : Chess) (origin : Coordinate) : List GoStr :=
  let p := c.board.SquareD origin
  let dir : Int := if p &&& White = Empty then 1 else -1
  let tCor := Coor origin.X (origin.Y + 1 * dir)
  let isPromotion := tCor.Y = 7 ∨ tCor.Y = 0
  let s := c.board.SquareD tCor
  let moves : List GoStr := if s = Empty then [UCI origin tCor []] else []
  if isPromotion then
    pawnCaptureMoves c origin true ++ promotionPosibilities origin tCor
  else if ¬(dir = 1 ∧ origin.Y = 1) ∧ ¬(dir = -1 ∧ origin.Y = 6) then
    pawnCaptureMoves c origin false ++ moves
  else
    let tCor2 := Coor origin.X (origin.Y + 2 * dir)
    let s2 := c.board.SquareD tCor2
    let moves2 := if s2 = Empty then moves ++ [UCI origin tCor2 []] else moves
    pawnCaptureMoves c origin false ++ moves2

/-- One ray of `slidingPieces`: walk from step `i` until the edge or an
occupied square.  The fuel bounds the walk; for the unit offsets the source
uses, a ray leaves the board in at most `width` steps, so the fuel is never
exhausted. -/
def slideRay (b : Board) (origin : Coordinate) (color : Nat) (d : Coordinate) :
    Int → Nat → List GoStr
  | _, 0 => []
  | i, fuel + 1 =>
    let tCor := Coor (origin.X + i * d.X) (origin.Y + i * d.Y)
    match b.Square tCor with
    | none => []
    | some ts =>
      if ts = Empty then UCI origin tCor [] :: slideRay b origin color d (i + 1) fuel
      else if ts &&& color = Empty then [UCI origin tCor []]
      else []

/-- `slidingPieces`. -/
def slidingPieces (c : Chess) (origin : Coordinate) (offsets : List Coordinate) : List GoStr :=
  let p := c.board.SquareD origin
  let color := p &&& (White ||| Black)
  (offsets.map fun d => slideRay c.board origin color d 1 (c.board.width + 1)).flatten

/-- `oneStepPieces`. -/
def oneStepPieces (c : Chess) (origin : Coordinate) (offsets : List Coordinate) : List GoStr :=
  let p := c.board.SquareD origin
  let color := p &&& (White ||| Black)
  (offsets.map fun d =>
    let tCor := Coor (origin.X + d.X) (origin.Y + d.Y)
    match c.board.Square tCor with
    | none => []
    | some ts =>
      if ts = Empty then [UCI origin tCor []]
      else if ts &&& color = Empty then [UCI origin tCor []]
      else []).flatten

/-- `knightMoves`. -/
def knightMoves (c : Chess) (origin : Coordinate) : List GoStr :=
  oneStepPieces c origin
    [Coor 1 2, Coor 2 1, Coor 1 (-2), Coor 2 (-1),
     Coor (-1) 2, Coor (-2) 1, Coor (-1) (-2), Coor (-2) (-1)]

/-- `kingMoves`. -/
def kingMoves (c : Chess) (origin : Coordinate) : List GoStr :=
  oneStepPieces c origin
    [Coor 1 1, Coor 1 0, Coor 1 (-1), Coor 0 1, Coor 0 (-1),
     Coor (-1) 1, Coor (-1) 0, Coor (-1) (-1)]

/-- `kingCastleMoves`.  Go iterates the `castleDirections` map in unspecified
order; at most one of `k`/`K` and one of `q`/`Q` can pass the color filter,
so the emitted set is order-independent and the `len(moves) == 2` break never
drops a move.  The fixed order below stands in for the map iteration. -/
def kingCastleMoves (c : Chess) (origin : Coordinate) : List GoStr :=
  if c.availableCastles = bytes ("-") then []
  else
    let p := c.board.SquareD origin
    let kingColor := p &&& (White ||| Black)
    let dirs : List (GoStr × Int) :=
      [(bytes ("k"), 1), (bytes ("K"), 1), (bytes ("q"), -1), (bytes ("Q"), -1)]
    (dirs.map fun cd =>
      if ¬ goContains1 c.availableCastles cd.1 then []
      else if Pieces cd.1 &&& kingColor = Empty then []
      else
        match c.board.Square (Coor (origin.X + cd.2) origin.Y) with
        | none => []
        | some ts =>
          if ts ≠ Empty then []
          else
            match c.board.Square (Coor (origin.X + 2 * cd.2) origin.Y) with
            | none => []
            | some ts2 =>
              if ts2 ≠ Empty then []
              else [UCI origin (Coor (origin.X + 2 * cd.2) origin.Y) []]).flatten

/-- `rookMoves`. -/
def rookMoves (c : Chess) (origin : Coordinate) : List GoStr :=
  slidingPieces c origin [Coor 1 0, Coor (-1) 0, Coor 0 1, Coor 0 (-1)]

/-- `bishopMoves`. -/
def bishopMoves (c : Chess) (origin : Coordinate) : List GoStr :=
  slidingPieces c origin [Coor 1 1, Coor (-1) 1, Coor 1 (-1), Coor (-1) (-1)]

/-- `queenMoves`. -/
def queenMoves (c : Chess) (origin : Coordinate) : List GoStr :=
  rookMoves c origin ++ bishopMoves c origin

/-- `movesForPiece`: dispatch on the uncolored piece type. -/
def movesForPiece (c : Chess) (piece : Nat) (origin : Coordinate) : List GoStr :=
  let t := bandNot piece (White ||| Black)
  if t = Pawn then pawnMoves c origin
  else if t = Rook then rookMoves c origin
  else if t = Queen then queenMoves c origin
  else if t = King then kingMoves c origin ++ kingCastleMoves c origin
  else if t = Bishop then bishopMoves c origin
  else if t = Knight then knightMoves c origin
  else []

/-- `availableMoves`: pseudo-legal moves of the side to move, scanning files
(`x`) in the outer loop as the source does. -/
def availableMoves (c : Chess) : List GoStr :=
  ((List.range 8).map fun x =>
    ((List.range 8).map fun y =>
      let origin := Coor (Int.ofNat x) (Int.ofNat y)
      let piece := c.board.SquareD origin
      if piece &&& c.turn = Empty then []
      else movesForPiece c piece origin).flatten).flatten

/-- `isCastleMove` (from `chess/moves.go`). -/
def isCastleMove (c : Chess) (move : GoStr) : Bool :=
  if castlesMoves move ≠ c.turn then false
  else
    let origin := (AlgebraicToCoordinate (move.take 2)).getD (Coor 0 0)
    c.board.SquareD origin = King ||| c.turn

/-- `isEnPassantMove` (from `chess/moves.go`). -/
def isEnPassantMove (c : Chess) (move : GoStr) : Bool :=
  if c.enPassantSquare = [] then false
  else if (move.drop 2).take 2 ≠ c.enPassantSquare then false
  else
    let origin := (AlgebraicToCoordinate (move.take 2)).getD (Coor 0 0)
    bandNot (c.board.SquareD origin) (White ||| Black) = Pawn

/-- `destinationMatch`: does any move target the given square?  Go slices
`move[2:4]`, which panics on a move string shorter than 4 bytes; such strings
arise only from a pawn already standing on its final rank, which no claim
exercises, and the model totalizes the slice instead. -/
def destinationMatch (moves : List GoStr) (destination : Coordinate) : Bool :=
  let algCoor := CoordinateToAlgebraic destination
  moves.any fun m => (m.drop 2).take 2 = algCoor

/-- `kingsPosition` (current snapshot): read the king-position cache. -/
def kingsPosition (c : Chess) (color : Nat) : Coordinate :=
  if color = White then c.whiteKingPosition else c.blackKingPosition

/-- `toggleColor`. -/
def toggleColor (c : Chess) : Chess :=
  if c.turn = White then { c with turn := Black } else { c with turn := White }

/-- `isCheck`: is the side to move's king a pseudo-legal target of the
opponent?  The Go value receiver makes the toggle invisible to callers. -/
def isCheck (c : Chess) : Bool :=
  destinationMatch (availableMoves (toggleColor c)) (kingsPosition c c.turn)

/-- `isPositionLegal`: the side to move must not be able to capture the
opponent's king. -/
def isPositionLegal (c : Chess) : Bool := ! isCheck (toggleColor c)

/-! FEN codec (`loadPosition`, `setProperties`, validators and the
`calculateFEN` family, from the helper file of package `chess`). -/

/-- `validateCastles` worker: every letter must come from the still-unused
subset of `{K, Q, k, q}` (Go deletes each letter from the set as it is
seen). -/
def validateCastlesGo : GoStr → List Nat → Bool
  | [], _ => true
  | b :: rest, allowed =>
    if allowed.contains b then validateCastlesGo rest (allowed.erase b) else false

/-- `validateCastles`. -/
def validateCastles (castles : GoStr) : Bool :=
  if castles = bytes ("-") then true
  else validateCastlesGo castles [75, 81, 107, 113]

/-- `validateEnPassant`. -/
def validateEnPassant (c : Chess) (square : GoStr) : Bool :=
  if square = bytes ("-") then true
  else
    match AlgebraicToCoordinate square with
    | none => false
    | some coor =>
      if coor.Y ≠ 2 ∧ coor.Y ≠ 5 then false
      else
        let yCoor : Int := if coor.Y = 2 then 3 else 4
        let color := if coor.Y = 2 then Black else White
        bandNot (c.board.SquareD (Coor coor.X yCoor)) color = Pawn

/-- `setProperties`: validate and install the five property fields.  Go
splits the whole FEN on spaces and drops the first piece; `loadPosition` has
already ensured at least six space-separated fields, so the positional reads
are in range. -/
def setProperties (c : Chess) (fen : GoStr) : Option Chess :=
  let props := (goSplit 32 fen).drop 1
  match Colors (props.getD 0 []) with
  | none => none
  | some color =>
    let availableCastles := props.getD 1 []
    if ¬ validateCastles availableCastles then none
    else
      let enPassantSquare := props.getD 2 []
      if ¬ validateEnPassant c enPassantSquare then none
      else
        match goAtoi (props.getD 3 []) with
        | none => none
        | some halfMoves =>
          match goParseUint32 (props.getD 4 []) with
          | none => none
          | some movesCount =>
            some { c with
              turn := color
              availableCastles := availableCastles
              enPassantSquare := enPassantSquare
              halfMoves := halfMoves
              movesCount := movesCount }

/-- One slot of the rank-expansion loop in `loadPosition`: consume the first
byte of the remaining rank string; a digit `n` stands for `n` empty squares,
realised by writing back `n-1` when positive.  Reading from an exhausted
string is a Go index-out-of-range panic, modelled as `none`. -/
def parseRowStep : GoStr → Nat → Option (List Nat × GoStr)
  | _, 0 => some ([], [])
  | [], _ + 1 => none
  | ch :: rest, slots + 1 =>
    match digitVal ch with
    | some n =>
      let m := n - 1
      let rest2 := if 0 < m then natToBytes m ++ rest else rest
      (parseRowStep rest2 slots).map fun sr => (Empty :: sr.1, sr.2)
    | none =>
      (parseRowStep rest slots).map fun sr => (Pieces [ch] :: sr.1, sr.2)

/-- One rank of `loadPosition`.  Outer `none` is the panic; inner `none` is a
validation error (bad length up front, or a leftover other than `""`/`"0"`
after the eight slots). -/
def parseRowFull (r : GoStr) : Option (Option (List Nat)) :=
  if r.length = 0 ∨ r.length > 8 then some none
  else
    match parseRowStep r 8 with
    | none => none
    | some (squares, leftover) =>
      if leftover ≠ [] ∧ leftover ≠ [48] then some none
      else some (some squares)

/-- All eight ranks, in order, stopping at the first panic or error as the Go
loop does. -/
def parseRowsAll : List GoStr → Option (Option (List (List Nat)))
  | [] => some (some [])
  | r :: rest =>
    match parseRowFull r with
    | none => none
    | some none => some none
    | some (some row) =>
      match parseRowsAll rest with
      | none => none
      | some none => some none
      | some (some rows) => some (some (row :: rows))

/-- Count and last-scanned position of a piece code on a parsed 8x8 grid,
scanning ranks top to bottom and files left to right exactly as the Go
parsing loop does (so with count 1 the position is the unique king). -/
def kingScan (brd : List (List Nat)) (piece : Nat) : Nat × Option Coordinate :=
  (((List.range 8).map fun y => (List.range 8).map fun x => (x, y)).flatten).foldl
    (fun acc xy =>
      if (brd.getD xy.2 []).getD xy.1 Empty = piece then
        (acc.1 + 1, some (Coor (Int.ofNat xy.1) (Int.ofNat xy.2)))
      else acc)
    (0, none)

/-- Result of a Go call that may mutate the receiver, fail with an error, or
panic. -/
inductive Outcome where
  | ok (c : Chess)
  | fail (c : Chess)
  | crash
deriving DecidableEq, Repr

def Outcome.isOk : Outcome → Bool
  | .ok _ => true
  | _ => false

def Outcome.isFail : Outcome → Bool
  | .fail _ => true
  | _ => false

/-- The state carried by the outcome; `crash` has none and yields the
default. -/
def Outcome.getD : Outcome → Chess → Chess
  | .ok c, _ => c
  | .fail c, _ => c
  | .crash, d => d

/-- `loadPosition` (the private helper): parse a FEN string and install it.
On any error Go restores the saved copy of the whole struct, so every `fail`
carries the untouched input state. -/
def loadPosition (c : Chess) (fen : GoStr) : Outcome :=
  let fenRows := goSplit 47 fen
  if fenRows.length ≠ 8 then .fail c
  else
    let props := goSplit 32 (fenRows.getD 7 [])
    if props.length ≠ 6 then .fail c
    else
      let rows := fenRows.take 7 ++ [props.getD 0 []]
      match parseRowsAll rows with
      | none => .crash
      | some none => .fail c
      | some (some brd) =>
        let wk := kingScan brd (King ||| White)
        let bk := kingScan brd (King ||| Black)
        if ¬ (wk.1 = 1 ∧ bk.1 = 1) then .fail c
        else
          match setProperties { c with board := ⟨brd, 8⟩ } fen with
          | none => .fail c
          | some c2 =>
            let c3 := { c2 with
              whiteKingPosition := wk.2.getD (Coor 0 0)
              blackKingPosition := bk.2.getD (Coor 0 0) }
            if ¬ isPositionLegal c3 then .fail c
            else .ok c3

/-- `calculateRowFEN` worker: scan the row, coalescing empty runs. -/
def rowFENGo (c : Chess) (y : Int) : List Nat → Nat → GoStr
  | [], empty => if 0 < empty then natToBytes empty else []
  | x :: xs, empty =>
    let piece := c.board.SquareD (Coor (Int.ofNat x) y)
    if piece = Empty then rowFENGo c y xs (empty + 1)
    else
      (if 0 < empty then natToBytes empty else []) ++ PieceNames piece ++ rowFENGo c y xs 0

/-- `calculateRowFEN`. -/
def calculateRowFEN (c : Chess) (y : Int) : GoStr :=
  rowFENGo c y (List.range c.board.width) 0

/-- `calculateEntireBoardFEN`. -/
def calculateEntireBoardFEN (c : Chess) : GoStr :=
  ((List.range c.board.width).map fun y =>
    calculateRowFEN c (Int.ofNat y) ++ (if y < 7 then [47] else [])).flatten

/-- In-place update at a Go `int` index; Go panics out of range, but every
call site passes a rank index taken from a validated move. -/
def listSetInt (l : List GoStr) (i : Int) (v : GoStr) : List GoStr :=
  if 0 ≤ i then listSet l i.toNat v else l

/-- `calculateBoardFEN`: rebuild only the given ranks, splicing them into the
rank list of the cached `actualFEN`. -/
def calculateBoardFEN (c : Chess) (rows : List Int) : GoStr :=
  if rows = [] then calculateEntireBoardFEN c
  else
    let r := goSplit 47 ((goSplit 32 c.actualFEN).getD 0 [])
    joinWith 47 (rows.foldl (fun acc row => listSetInt acc row (calculateRowFEN c row)) r)

/-- `cmp.Or` for strings: the first non-zero (non-empty) argument. -/
def cmpOr (a b : GoStr) : GoStr := if a = [] then b else a

/-- `calculateFEN` with one move argument, the only form the engine calls
after a move.  Both king-position caches are always set in this model, so the
Go nil-pointer early return cannot fire. -/
def calculateFEN1 (c : Chess) (move : GoStr) : GoStr :=
  let ac := cmpOr c.availableCastles (bytes ("-"))
  let ips := cmpOr c.enPassantSquare (bytes ("-"))
  let origin := (AlgebraicToCoordinate (move.take 2)).getD (Coor 0 0)
  let target := (AlgebraicToCoordinate ((move.drop 2).take 2)).getD (Coor 0 0)
  let boardFEN := calculateBoardFEN c [origin.Y, target.Y]
  boardFEN ++ [32] ++ ColorNames c.turn ++ [32] ++ ac ++ [32] ++ ips ++ [32] ++
    intToBytes c.halfMoves ++ [32] ++ natToBytes c.movesCount

/-! Move application and history (`chess/moves.go` plus the update helpers). -/

/-- `updateMovesCount`: increment after Black's move (the turn has already
been toggled). -/
def updateMovesCount (c : Chess) : Chess :=
  if c.turn = White then { c with movesCount := c.movesCount + 1 } else c

/-- `updateCastlePossibilities`: re-derive each castling right from the
current occupants of the king and rook home squares.  Go iterates the
`toBeRemoved` map in unspecified order; the four removals filter distinct
letters and commute, so the fixed order below yields the same string. -/
def updateCastlePossibilities (c : Chess) : Chess :=
  let k := c.board.SquareD (Coor 4 0)
  let rr := c.board.SquareD (Coor 7 0)
  let lr := c.board.SquareD (Coor 0 0)
  let remk := rr ≠ Rook ||| Black ∨ k ≠ King ||| Black
  let remq := lr ≠ Rook ||| Black ∨ k ≠ King ||| Black
  let bigK := c.board.SquareD (Coor 4 7)
  let rR := c.board.SquareD (Coor 7 7)
  let lR := c.board.SquareD (Coor 0 7)
  let remK := rR ≠ Rook ||| White ∨ bigK ≠ King ||| White
  let remQ := lR ≠ Rook ||| White ∨ bigK ≠ King ||| White
  let ac := c.availableCastles
  let ac := if remk then ac.filter (fun b => b ≠ 107) else ac
  let ac := if remq then ac.filter (fun b => b ≠ 113) else ac
  let ac := if remK then ac.filter (fun b => b ≠ 75) else ac
  let ac := if remQ then ac.filter (fun b => b ≠ 81) else ac
  { c with availableCastles := ac }

/-- The `[/0-9]` regexp deletion used by `updateHalfMoves`: keep only piece
letters. -/
def fenLetters (s : GoStr) : GoStr :=
  s.filter fun b => ¬ (b = 47 ∨ (48 ≤ b ∧ b ≤ 57))

/-- `updateHalfMoves`: increment, then reset to zero on promotion, on a
piece-count drop relative to the board part of the FEN stored in the last
history entry, or on a pawn standing on the move's target square.  Go would
panic on an empty history; the function is only called right after a push. -/
def updateHalfMoves (c : Chess) : Chess :=
  let c1 := { c with halfMoves := c.halfMoves + 1 }
  let h := c1.history.getLastD emptyContext
  if h.move.length = 5 then { c1 with halfMoves := 0 }
  else
    let lastFENPiecePart := fenLetters ((goSplit 32 h.fen).getD 0 [])
    let fenPiecePart := fenLetters (calculateBoardFEN c1 [])
    if fenPiecePart.length < lastFENPiecePart.length then { c1 with halfMoves := 0 }
    else
      let coor := (AlgebraicToCoordinate ((h.move.drop 2).take 2)).getD (Coor 0 0)
      if bandNot (c1.board.SquareD coor) (White ||| Black) = Pawn then
        { c1 with halfMoves := 0 }
      else c1

/-- `updateEnPassantSquare`: clear, then set to the skipped square when the
last move was a plain pawn move with a rank delta of two. -/
def updateEnPassantSquare (c : Chess) : Chess :=
  let c1 := { c with enPassantSquare := [] }
  let lastMove := (c1.history.getLastD emptyContext).move
  if lastMove.length ≠ 4 then c1
  else
    let dest := (AlgebraicToCoordinate (lastMove.drop 2)).getD (Coor 0 0)
    if bandNot (c1.board.SquareD dest) (White ||| Black) ≠ Pawn then c1
    else
      let destRow := (goAtoi ((lastMove.drop 3).take 1)).getD 0
      let orgRow := (goAtoi ((lastMove.drop 1).take 1)).getD 0
      if destRow = orgRow + 2 ∨ destRow = orgRow - 2 then
        { c1 with enPassantSquare := (lastMove.drop 2).take 1 ++ intToBytes ((destRow + orgRow) / 2) }
      else c1

/-- `makeMove`: commit an already-validated move — castle rook relocation,
en-passant removal, promotion or plain relocation, history push, king-cache
update, then the derived-state updates in source order. -/
def makeMove (c : Chess) (move : GoStr) : Chess :=
  let lastFEN := c.actualFEN
  let o := (AlgebraicToCoordinate (move.take 2)).getD (Coor 0 0)
  let t := (AlgebraicToCoordinate ((move.drop 2).take 2)).getD (Coor 0 0)
  let c1 :=
    if isCastleMove c move then
      { c with board := c.board.MakeMove (castleRook move) (Coor ((o.X + t.X) / 2) o.Y) }
    else c
  let c2 :=
    if isEnPassantMove c1 move then
      { c1 with board := c1.board.SetSquare (Coor t.X o.Y) Empty }
    else c1
  let c3 :=
    if move.length = 5 then
      { c2 with board := (c2.board.SetSquare t (PiecesWithoutColor ((move.drop 4).take 1) ||| c2.turn)).SetSquare o Empty }
    else { c2 with board := c2.board.MakeMove o t }
  let ctx : ChessContext :=
    ⟨move, lastFEN, c.halfMoves, c.availableCastles, c.enPassantSquare,
     c.whiteKingPosition, c.blackKingPosition, false, false, false⟩
  let c4 := { c3 with history := c3.history ++ [ctx] }
  let c5 := if o = c4.whiteKingPosition then { c4 with whiteKingPosition := t } else c4
  let c6 := if o = c5.blackKingPosition then { c5 with blackKingPosition := t } else c5
  updateEnPassantSquare (updateHalfMoves (updateCastlePossibilities (updateMovesCount (toggleColor c6))))

/-- `unmakeMove`: pop the last history entry and reload its stored FEN; the
reload error is discarded, the king caches are restored from the entry.
`none` models the (never exercised) panic inside the reload. -/
def unmakeMove (c : Chess) : Option Chess :=
  if c.history = [] then some c
  else
    let lastContext := c.history.getLastD emptyContext
    match loadPosition { c with history := c.history.dropLast } lastContext.fen with
    | .crash => none
    | .ok c2 => some { c2 with
        whiteKingPosition := lastContext.whiteKingPosition
        blackKingPosition := lastContext.blackKingPosition }
    | .fail c2 => some { c2 with
        whiteKingPosition := lastContext.whiteKingPosition
        blackKingPosition := lastContext.blackKingPosition }

/-- `isLegalMove`: simulate the move in place, probe the opponent's replies
against the mover's king (and king-way for castles), and undo.  The returned
state is the receiver after the undo — Go's callers keep using it. -/
def isLegalMove (c : Chess) (move : GoStr) : Option (Bool × Chess) :=
  let kingsColor := c.turn
  let c1 := makeMove c move
  let am := availableMoves c1
  let kingUnderAttack := destinationMatch am (kingsPosition c1 kingsColor)
  match unmakeMove c1 with
  | none => none
  | some c2 =>
    if kingUnderAttack then some (false, c2)
    else if isCastleMove c2 move && destinationMatch am (castleKingWay move) then some (false, c2)
    else some (true, c2)

/-- The filter loop of `legalMoves`, threading the receiver state through the
simulate/undo cycles exactly as the Go pointer receiver does. -/
def legalFilter : Chess → List GoStr → Option (List GoStr × Chess)
  | c, [] => some ([], c)
  | c, m :: rest =>
    match isLegalMove c m with
    | none => none
    | some (b, c1) =>
      match legalFilter c1 rest with
      | none => none
      | some (kept, c2) => some ((if b then [m] else []) ++ kept, c2)

/-- `legalMoves`: pseudo-legal moves filtered by `isLegalMove`.  Go replaces
the empty slice by a nil slice when the position is in check; both model as
`[]`. -/
def legalMoves (c : Chess) : Option (List GoStr × Chess) :=
  match legalFilter c (availableMoves c) with
  | none => none
  | some (kept, c1) =>
    if kept = [] ∧ isCheck c1 then some ([], c1) else some (kept, c1)

/-! The public API of `chess.Chess` (current snapshot). -/

/-- `gochess.DefaultChessBoard`. -/
def DefaultChessBoard : Board :=
  ⟨[[Black ||| Rook, Black ||| Knight, Black ||| Bishop, Black ||| Queen,
     Black ||| King, Black ||| Bishop, Black ||| Knight, Black ||| Rook],
    [Black ||| Pawn, Black ||| Pawn, Black ||| Pawn, Black ||| Pawn,
     Black ||| Pawn, Black ||| Pawn, Black ||| Pawn, Black ||| Pawn],
    [Empty, Empty, Empty, Empty, Empty, Empty, Empty, Empty],
    [Empty, Empty, Empty, Empty, Empty, Empty, Empty, Empty],
    [Empty, Empty, Empty, Empty, Empty, Empty, Empty, Empty],
    [Empty, Empty, Empty, Empty, Empty, Empty, Empty, Empty],
    [White ||| Pawn, White ||| Pawn, White ||| Pawn, White ||| Pawn,
     White ||| Pawn, White ||| Pawn, White ||| Pawn, White ||| Pawn],
    [White ||| Rook, White ||| Knight, White ||| Bishop, White ||| Queen,
     White ||| King, White ||| Bishop, White ||| Knight, White ||| Rook]], 8⟩

/-- `chess.New()` without options: the hardcoded starting state. -/
def NewChess : Chess where
  board := DefaultChessBoard
  turn := White
  movesCount := 1
  halfMoves := 0
  enPassantSquare := []
  availableCastles := bytes ("KQkq")
  moves :=
    [bytes ("a2a3"), bytes ("a2a4"), bytes ("b2b3"), bytes ("b2b4"),
     bytes ("c2c3"), bytes ("c2c4"), bytes ("d2d3"), bytes ("d2d4"),
     bytes ("e2e3"), bytes ("e2e4"), bytes ("f2f3"), bytes ("f2f4"),
     bytes ("g2g3"), bytes ("g2g4"), bytes ("h2h3"), bytes ("h2h4"),
     bytes ("b1a3"), bytes ("b1c3"), bytes ("g1f3"), bytes ("g1h3")]
  actualFEN := bytes ("rnbqkbnr/pppppppp/8/8/8/8/PPPPPPPP/RNBQKBNR w KQkq - 0 1")
  blackKingPosition := Coor 4 0
  whiteKingPosition := Coor 4 7
  check := false
  checkmate := false
  stalemate := false
  history := []

/-- `Chess.FEN()` (current snapshot): return the cached FEN string. -/
def FEN (c : Chess) : GoStr := c.actualFEN

/-- `Chess.AvailableMoves()`: return the cached legal-move list. -/
def AvailableMoves (c : Chess) : List GoStr := c.moves

/-- The classification coda shared verbatim by `Chess.LoadPosition` and
`Chess.MakeMove`: with the fresh legal-move list already stored, compute
`isCheck` once and set the `check`/`checkmate`/`stalemate` flags from it and
from the emptiness of the move list. -/
def classify (c : Chess) : Chess :=
  let check := isCheck c
  { c with
    check := check && !c.moves.isEmpty
    checkmate := check && c.moves.isEmpty
    stalemate := !check && c.moves.isEmpty }

/-- `Chess.LoadPosition`: the private load, then cache the input FEN, the
legal moves and the check/checkmate/stalemate classification. -/
def LoadPosition (c : Chess) (fen : GoStr) : Outcome :=
  match loadPosition c fen with
  | .crash => .crash
  | .fail c1 => .fail c1
  | .ok c1 =>
    match legalMoves { c1 with actualFEN := fen } with
    | none => .crash
    | some (ms, c3) => .ok (classify { c3 with moves := ms })

/-- `Chess.MakeMove`: reject a move not in the cached legal-move list,
otherwise commit it and refresh the caches. -/
def MakeMove (c : Chess) (move : GoStr) : Outcome :=
  if ¬ c.moves.contains move then .fail c
  else
    let c1 := makeMove c move
    match legalMoves { c1 with actualFEN := calculateFEN1 c1 move } with
    | none => .crash
    | some (ms, c3) => .ok (classify { c3 with moves := ms })

/-- `Chess.UnmakeMove`: undo the last move (a no-op on empty history) and
refresh the cached legal-move list. -/
def UnmakeMove (c : Chess) : Option Chess :=
  match unmakeMove c with
  | none => none
  | some c1 =>
    match legalMoves c1 with
    | none => none
    | some (ms, c2) => some { c2 with moves := ms }

/-- Number of squares holding the given piece code. -/
def countPieces (b : Board) (p : Nat) : Nat :=
  ((b.squares.map fun row => (row.filter fun q => q = p).length).foldl (· + ·) 0)

/-- Number of occupied squares. -/
def occupiedCount (b : Board) : Nat :=
  ((b.squares.map fun row => (row.filter fun q => q ≠ Empty).length).foldl (· + ·) 0)

/-! Theorems about the embedded program. -/

/-- C10: for on-board coordinates, `CoordinateToAlgebraic` produces the
two-byte string with file letter `'a'+X` and rank digit `8-Y`, and
`AlgebraicToCoordinate` inverts it; out-of-range coordinates give the empty
string; `AlgebraicToCoordinate` rejects every string whose length differs
from 2 and succeeds only on strings decoding inside the board. -/
theorem coordinate_codec_roundtrip :
    (∀ x y : Int, 0 ≤ x → x ≤ 7 → 0 ≤ y → y ≤ 7 →
      CoordinateToAlgebraic (Coor x y) = [(97 + x).toNat, (48 + (8 - y)).toNat] ∧
      AlgebraicToCoordinate (CoordinateToAlgebraic (Coor x y)) = some (Coor x y)) ∧
    (∀ c : Coordinate, (c.X > 7 ∨ c.Y > 7 ∨ c.X < 0 ∨ c.Y < 0) →
      CoordinateToAlgebraic c = []) ∧
    (∀ s : GoStr, s.length ≠ 2 → AlgebraicToCoordinate s = none) ∧
    (∀ s : GoStr, ∀ c : Coordinate, AlgebraicToCoordinate s = some c →
      0 ≤ c.X ∧ c.X ≤ 7 ∧ 0 ≤ c.Y ∧ c.Y ≤ 7) := by
  refine ⟨?_, ?_, ?_, ?_⟩
  · intro x y hx0 hx7 hy0 hy7
    interval_cases x <;> interval_cases y <;> exact ⟨by decide, by decide⟩
  · intro c h
    unfold CoordinateToAlgebraic
    rw [if_pos h]
  · intro s h
    match s with
    | [] => rfl
    | [_] => rfl
    | [_, _] => exact absurd rfl h
    | _ :: _ :: _ :: _ => rfl
  · intro s c h
    match s with
    | [] => exact absurd h (by simp [AlgebraicToCoordinate])
    | [_] => exact absurd h (by simp [AlgebraicToCoordinate])
    | _ :: _ :: _ :: _ => exact absurd h (by simp [AlgebraicToCoordinate])
    | [s0, s1] =>
      simp only [AlgebraicToCoordinate] at h
      split at h
      · exact absurd h (by simp)
      · rename_i hrange
        injection h with h2
        subst h2
        push_neg at hrange
        exact ⟨hrange.1, hrange.2.1, hrange.2.2.1, hrange.2.2.2⟩

/-- Witness for C10 at concrete inputs. -/
theorem coordinate_codec_roundtrip_witness :
    (CoordinateToAlgebraic (Coor 4 6) = [(97 + (4 : Int)).toNat, (48 + (8 - (6 : Int))).toNat] ∧
      AlgebraicToCoordinate (CoordinateToAlgebraic (Coor 4 6)) = some (Coor 4 6)) ∧
    CoordinateToAlgebraic (Coor 8 0) = [] ∧
    AlgebraicToCoordinate [101] = none ∧
    (0 ≤ (Coor 0 7).X ∧ (Coor 0 7).X ≤ 7 ∧ 0 ≤ (Coor 0 7).Y ∧ (Coor 0 7).Y ≤ 7) :=
  ⟨coordinate_codec_roundtrip.1 4 6 (by decide) (by decide) (by decide) (by decide),
   coordinate_codec_roundtrip.2.1 (Coor 8 0) (by decide),
   coordinate_codec_roundtrip.2.2.1 [101] (by decide),
   coordinate_codec_roundtrip.2.2.2 (bytes ("a1")) (Coor 0 7) (by decide)⟩

/-- C6: a move string outside the cached legal-move list is rejected with an
error and the whole game state is returned untouched. -/
theorem makeMove_illegal_unchanged (c : Chess) (move : GoStr)
    (h : c.moves.contains move = false) : MakeMove c move = .fail c := by
  have h2 : move ∉ c.moves := by simpa using h
  simp [MakeMove, h2]

/-- Witness for C6: a move that is not legal from the starting position. -/
theorem makeMove_illegal_unchanged_witness :
    MakeMove NewChess (bytes ("e2e5")) = .fail NewChess :=
  makeMove_illegal_unchanged NewChess (bytes ("e2e5")) (by decide)

/-- Every error return of the FEN loader restores the saved copy of the
receiver, so the state it leaves behind is exactly the input state. -/
theorem loadPosition_fail_eq (c : Chess) (f : GoStr) (c1 : Chess)
    (h : loadPosition c f = .fail c1) : c1 = c := by
  simp only [loadPosition] at h
  repeat' split at h
  all_goals first
    | (injection h with h2; exact h2.symm)
    | exact Outcome.noConfusion h

/-- C5 counterexample: a FEN whose first rank segment expands to fewer than 8
squares makes `LoadPosition` read past the end of the segment string — a Go
index-out-of-range panic, not an error return. -/
theorem loadPosition_short_rank_panics :
    LoadPosition NewChess (bytes ("k/8/8/8/8/8/8/7K w - - 0 1")) = .crash := by decide

/-- C5 amended: whenever `LoadPosition` returns an error, the observable game
state is exactly the state before the call. -/
theorem loadPosition_error_unchanged (c : Chess) (f : GoStr) (c1 : Chess)
    (h : LoadPosition c f = .fail c1) : c1 = c := by
  unfold LoadPosition at h
  split at h
  · exact Outcome.noConfusion h
  · rename_i c2 heq
    injection h with h2
    exact h2.symm.trans (loadPosition_fail_eq c f c2 heq)
  · split at h
    · exact Outcome.noConfusion h
    · exact Outcome.noConfusion h

/-- Witness for C5 at a concrete rejected FEN (bad color field). -/
theorem loadPosition_error_unchanged_witness :
    (LoadPosition NewChess
      (bytes ("rnbqkbnr/pppppppp/8/8/8/8/PPPPPPPP/RNBQKBNR o KQkq - 0 1"))).getD NewChess
      = NewChess := by
  have h : LoadPosition NewChess
      (bytes ("rnbqkbnr/pppppppp/8/8/8/8/PPPPPPPP/RNBQKBNR o KQkq - 0 1")) =
      .fail ((LoadPosition NewChess
        (bytes ("rnbqkbnr/pppppppp/8/8/8/8/PPPPPPPP/RNBQKBNR o KQkq - 0 1"))).getD NewChess) := by
    decide
  exact loadPosition_error_unchanged _ _ _ h

/-- `isCheck` reads only the board, the turn, the en-passant square, the
castling rights and the two king-position caches; states agreeing on those
fields are equally in check. -/
theorem isCheck_congr (c c' : Chess)
    (hb : c.board = c'.board) (ht : c.turn = c'.turn)
    (hep : c.enPassantSquare = c'.enPassantSquare)
    (hac : c.availableCastles = c'.availableCastles)
    (hwk : c.whiteKingPosition = c'.whiteKingPosition)
    (hbk : c.blackKingPosition = c'.blackKingPosition) : isCheck c = isCheck c' := by
  obtain ⟨b, t, mc, hm, ep, ac, mv, fen, bk, wk, ch, cm, st, hi⟩ := c
  obtain ⟨b', t', mc', hm', ep', ac', mv', fen', bk', wk', ch', cm', st', hi'⟩ := c'
  simp only at hb ht hep hac hwk hbk
  subst hb ht hep hac hwk hbk
  unfold isCheck toggleColor
  by_cases hw : t = White
  · simp only [hw, if_pos]
    rfl
  · simp only [if_neg hw]
    rfl

/-- Setting the flag fields does not change `isCheck`. -/
theorem isCheck_classify (c : Chess) : isCheck (classify c) = isCheck c :=
  isCheck_congr (classify c) c rfl rfl rfl rfl rfl rfl

theorem classify_moves (c : Chess) : (classify c).moves = c.moves := rfl

theorem classify_checkmate (c : Chess) :
    (classify c).checkmate = (isCheck c && c.moves.isEmpty) := rfl

theorem classify_stalemate (c : Chess) :
    (classify c).stalemate = (!isCheck c && c.moves.isEmpty) := rfl

/-- C8: every successfully loaded position is classified checkmate exactly
when its legal-move list is empty and its side to move is in check, and
stalemate exactly when the list is empty and it is not in check (so a
position with legal moves is neither); concretely, loading
`k7/8/8/8/8/8/3qr3/3K4 w - - 0 1` yields the empty legal-move list with
`checkmate` true. -/
theorem terminal_state_classification :
    (∀ c f c', LoadPosition c f = .ok c' →
      c'.checkmate = (isCheck c' && c'.moves.isEmpty) ∧
      c'.stalemate = (!isCheck c' && c'.moves.isEmpty)) ∧
    ((LoadPosition NewChess (bytes ("k7/8/8/8/8/8/3qr3/3K4 w - - 0 1"))).isOk = true ∧
     ((LoadPosition NewChess (bytes ("k7/8/8/8/8/8/3qr3/3K4 w - - 0 1"))).getD NewChess).moves = [] ∧
     ((LoadPosition NewChess (bytes ("k7/8/8/8/8/8/3qr3/3K4 w - - 0 1"))).getD NewChess).checkmate = true ∧
     ((LoadPosition NewChess (bytes ("k7/8/8/8/8/8/3qr3/3K4 w - - 0 1"))).getD NewChess).stalemate = false) := by
  constructor
  · intro c f c' h
    unfold LoadPosition at h
    split at h
    · exact Outcome.noConfusion h
    · exact Outcome.noConfusion h
    · split at h
      · exact Outcome.noConfusion h
      · injection h with h2
        subst h2
        rw [classify_checkmate, classify_stalemate, isCheck_classify, classify_moves]
        exact ⟨rfl, rfl⟩
  · refine ⟨by decide, by decide, by decide, by decide⟩

/-- Witness for C8 at the checkmate FEN from the claim. -/
theorem terminal_state_classification_witness :
    ((LoadPosition NewChess (bytes ("k7/8/8/8/8/8/3qr3/3K4 w - - 0 1"))).getD NewChess).checkmate =
      (isCheck ((LoadPosition NewChess (bytes ("k7/8/8/8/8/8/3qr3/3K4 w - - 0 1"))).getD NewChess) &&
       ((LoadPosition NewChess (bytes ("k7/8/8/8/8/8/3qr3/3K4 w - - 0 1"))).getD NewChess).moves.isEmpty) ∧
    ((LoadPosition NewChess (bytes ("k7/8/8/8/8/8/3qr3/3K4 w - - 0 1"))).getD NewChess).stalemate =
      (!isCheck ((LoadPosition NewChess (bytes ("k7/8/8/8/8/8/3qr3/3K4 w - - 0 1"))).getD NewChess) &&
       ((LoadPosition NewChess (bytes ("k7/8/8/8/8/8/3qr3/3K4 w - - 0 1"))).getD NewChess).moves.isEmpty) := by
  have h : LoadPosition NewChess (bytes ("k7/8/8/8/8/8/3qr3/3K4 w - - 0 1")) =
      .ok ((LoadPosition NewChess (bytes ("k7/8/8/8/8/8/3qr3/3K4 w - - 0 1"))).getD NewChess) := by
    decide
  exact terminal_state_classification.1 NewChess _ _ h

/-! Concrete states for the claims about code defects.  Each is reached
through the public API from `New()`. -/

def c1fen : GoStr := bytes ("7k/8/8/8/8/8/8/7K w - - 0 1")

def c1s0 : Chess := (LoadPosition NewChess c1fen).getD NewChess

def c1s1 : Chess := (MakeMove c1s0 (bytes ("h1h2"))).getD NewChess

def c1s2 : Chess := (UnmakeMove c1s1).getD c1s1

/-- C1: `MakeMove` followed by `UnmakeMove` does not restore the FEN —
`unmakeMove` reloads the stored position but never restores `actualFEN`, and
the subsequent legal-move recomputation even re-applies the stale FEN to the
board, so `FEN()` still reports the post-move position. -/
theorem unmake_move_does_not_restore_fen :
    (LoadPosition NewChess c1fen).isOk = true ∧
    c1s0.moves.contains (bytes ("h1h2")) = true ∧
    (MakeMove c1s0 (bytes ("h1h2"))).isOk = true ∧
    (UnmakeMove c1s1).isSome = true ∧
    FEN c1s2 ≠ FEN c1s0 ∧
    FEN c1s2 = bytes ("7k/8/8/8/8/8/7K/8 b - - 1 1") := by decide

def c2state : Chess :=
  (loadPosition NewChess (bytes ("7k/8/8/8/8/3n4/3P4/3K4 w - - 0 1"))).getD NewChess

/-- C2: the pawn on d2 is granted the double push d2d4 even though the
intervening square d3 is occupied by a knight — `pawnMoves` only tests the
two-square target for emptiness. -/
theorem pawn_double_push_through_occupied_square :
    (loadPosition NewChess (bytes ("7k/8/8/8/8/3n4/3P4/3K4 w - - 0 1"))).isOk = true ∧
    c2state.board.SquareD (Coor 3 5) = (Black ||| Knight) ∧
    c2state.board.SquareD (Coor 3 6) = (White ||| Pawn) ∧
    c2state.board.SquareD (Coor 3 4) = Empty ∧
    (pawnMoves c2state (Coor 3 6)).contains (bytes ("d2d4")) = true ∧
    (availableMoves c2state).contains (bytes ("d2d4")) = true := by decide

def c3state : Chess :=
  (loadPosition NewChess (bytes ("7k/8/8/8/8/8/8/RN2K3 w Q - 0 1"))).getD NewChess

/-- C3: the queen-side castle e1c1 is generated although the b1 square is
occupied by a knight — `kingCastleMoves` only tests the two squares next to
the king (d1 and c1), never the b-file square the rook crosses. -/
theorem queenside_castle_generated_with_b1_occupied :
    (loadPosition NewChess (bytes ("7k/8/8/8/8/8/8/RN2K3 w Q - 0 1"))).isOk = true ∧
    c3state.board.SquareD (Coor 1 7) = (White ||| Knight) ∧
    c3state.board.SquareD (Coor 2 7) = Empty ∧
    c3state.board.SquareD (Coor 3 7) = Empty ∧
    (kingCastleMoves c3state (Coor 4 7)).contains (bytes ("e1c1")) = true ∧
    (availableMoves c3state).contains (bytes ("e1c1")) = true := by decide

def c4state : Chess :=
  (loadPosition NewChess (bytes ("k5r1/6P1/8/8/8/8/8/K7 w - - 0 1"))).getD NewChess

/-- C4: the pawn on g7 is granted the four forward promotion moves to g8
although g8 is occupied by a black rook — the promotion branch of
`pawnMoves` emits `promotionPosibilities` unconditionally, ignoring the
emptiness test that guards the plain push. -/
theorem forward_promotion_onto_occupied_square :
    (loadPosition NewChess (bytes ("k5r1/6P1/8/8/8/8/8/K7 w - - 0 1"))).isOk = true ∧
    c4state.board.SquareD (Coor 6 0) = (Black ||| Rook) ∧
    c4state.board.SquareD (Coor 6 1) = (White ||| Pawn) ∧
    (pawnMoves c4state (Coor 6 1)).contains (bytes ("g7g8q")) = true ∧
    (availableMoves c4state).contains (bytes ("g7g8q")) = true := by decide

def c7s0 : Chess :=
  (LoadPosition NewChess (bytes ("xxxxxxxx/8/8/8/4k3/8/8/4K3 w - - 3 1"))).getD NewChess

def c7s1 : Chess := (MakeMove c7s0 (bytes ("e1d1"))).getD NewChess

/-- C7: committing the quiet king move e1d1 — no promotion, no capture (the
occupied-square count stays 2), the moved piece a king — resets the
half-move clock to 0 instead of incrementing it to 4.  `loadPosition` maps
the unrecognized letters `x` to empty squares but caches the verbatim FEN,
so `updateHalfMoves` sees more piece letters in the cached FEN than on the
board and wrongly concludes a capture. -/
theorem half_move_clock_reset_without_capture :
    (LoadPosition NewChess (bytes ("xxxxxxxx/8/8/8/4k3/8/8/4K3 w - - 3 1"))).isOk = true ∧
    c7s0.halfMoves = 3 ∧
    occupiedCount c7s0.board = 2 ∧
    c7s0.moves.contains (bytes ("e1d1")) = true ∧
    (MakeMove c7s0 (bytes ("e1d1"))).isOk = true ∧
    occupiedCount c7s1.board = 2 ∧
    c7s1.board.SquareD (Coor 3 7) = (White ||| King) ∧
    (bytes ("e1d1")).length = 4 ∧
    c7s1.halfMoves = 0 := by decide

def c9s0 : Chess :=
  (LoadPosition NewChess (bytes ("4K3/4P3/8/8/8/8/8/k7 w - - 0 1"))).getD NewChess

def c9s1 : Chess := (MakeMove c9s0 (bytes ("e7e8q"))).getD NewChess

/-- C9: from a successfully loaded position, committing the generated legal
move e7e8q promotes the pawn onto the square occupied by White's own king,
leaving zero white kings on the board. -/
theorem king_invariant_broken_by_forward_promotion :
    (LoadPosition NewChess (bytes ("4K3/4P3/8/8/8/8/8/k7 w - - 0 1"))).isOk = true ∧
    countPieces c9s0.board (King ||| White) = 1 ∧
    countPieces c9s0.board (King ||| Black) = 1 ∧
    c9s0.moves.contains (bytes ("e7e8q")) = true ∧
    (MakeMove c9s0 (bytes ("e7e8q"))).isOk = true ∧
    countPieces c9s1.board (King ||| White) = 0 := by decide

end Gochess
